import Mathlib

/-!
Verification model of `examples/tools/python/tool.py` — the `stats`
descriptive-statistics plugin tool (agent plugin protocol over
stdin/stdout).

Modelling conventions:

* Python floats are idealised as exact extended rationals: `PyFloat` is a
  finite rational, `inf`, `ninf` (negative infinity) or `nan`.  Arithmetic
  follows the IEEE-754 special-value rules, with exact (unrounded) finite
  arithmetic; results agree with the program wherever the binary64
  computation is exact, which covers every concrete input evaluated below.
* JSON documents are the inductive `JValue`.  The stdlib `json.loads` /
  `json.dumps` are not modelled: the message loop consumes parse outcomes
  (`InputLine`) and produces response documents (`JValue`).
* Uncaught Python exceptions (crashes) are modelled as `Except.error`
  values carrying a description of the exception.
-/

/-- Idealised Python float: an exact finite rational or an IEEE special
value (`inf`, `-inf`, `nan`). -/
inductive PyFloat
  | fin (q : ℚ)
  | inf
  | ninf
  | nan
deriving DecidableEq

namespace PyFloat

/-- Finiteness predicate (Python `math.isfinite`). -/
def isFinite : PyFloat → Bool
  | .fin _ => true
  | _ => false

/-- Negation of a Python float. -/
def pyNeg : PyFloat → PyFloat
  | .fin q => .fin (-q)
  | .inf => .ninf
  | .ninf => .inf
  | .nan => .nan

/-- IEEE addition on idealised floats (exact when finite). -/
def pyAdd : PyFloat → PyFloat → PyFloat
  | .nan, _ => .nan
  | _, .nan => .nan
  | .fin a, .fin b => .fin (a + b)
  | .fin _, .inf => .inf
  | .fin _, .ninf => .ninf
  | .inf, .fin _ => .inf
  | .inf, .inf => .inf
  | .inf, .ninf => .nan
  | .ninf, .fin _ => .ninf
  | .ninf, .inf => .nan
  | .ninf, .ninf => .ninf

/-- IEEE subtraction, `x - y = x + (-y)` (exactly the IEEE rule). -/
def pySub (x y : PyFloat) : PyFloat := pyAdd x (pyNeg y)

/-- IEEE multiplication on idealised floats; `0 * inf = nan`. -/
def pyMul : PyFloat → PyFloat → PyFloat
  | .nan, _ => .nan
  | _, .nan => .nan
  | .fin a, .fin b => .fin (a * b)
  | .fin a, .inf => if 0 < a then .inf else if a < 0 then .ninf else .nan
  | .fin a, .ninf => if 0 < a then .ninf else if a < 0 then .inf else .nan
  | .inf, .fin b => if 0 < b then .inf else if b < 0 then .ninf else .nan
  | .ninf, .fin b => if 0 < b then .ninf else if b < 0 then .inf else .nan
  | .inf, .inf => .inf
  | .inf, .ninf => .ninf
  | .ninf, .inf => .ninf
  | .ninf, .ninf => .inf

/-- Squaring, Python's `x ** 2` on a float. -/
def pyPow2 (x : PyFloat) : PyFloat := pyMul x x

/-- IEEE division.  The `b = 0` case would raise `ZeroDivisionError` in
Python; every division in the program divides by `n ≥ 1` or by `2`, so the
case is unreachable and mapped to `nan`. -/
def pyDiv : PyFloat → PyFloat → PyFloat
  | .nan, _ => .nan
  | _, .nan => .nan
  | .fin a, .fin b => if b = 0 then .nan else .fin (a / b)
  | .fin _, .inf => .fin 0
  | .fin _, .ninf => .fin 0
  | .inf, .fin b => if b < 0 then .ninf else .inf
  | .ninf, .fin b => if b < 0 then .inf else .ninf
  | .inf, _ => .nan
  | .ninf, _ => .nan

/-- IEEE strict comparison: any comparison involving `nan` is false. -/
def pyLt : PyFloat → PyFloat → Bool
  | .nan, _ => false
  | _, .nan => false
  | .fin a, .fin b => decide (a < b)
  | .fin _, .inf => true
  | .fin _, .ninf => false
  | .inf, _ => false
  | .ninf, .ninf => false
  | .ninf, _ => true

end PyFloat

open PyFloat

/-- Python `sum` over a float list: left fold of `+` starting from `0`. -/
def pySum (xs : List PyFloat) : PyFloat := xs.foldl pyAdd (.fin 0)

/-- Python `sorted` on floats.  `list.sort` places elements using `<`; on
`nan`-free input the result is the unique `≤`-sorted stable permutation,
which insertion sort by `¬(b < a)` computes.  (With `nan` present CPython's
result is Timsort-dependent; no claim below concerns that output.) -/
def pysorted (xs : List PyFloat) : List PyFloat :=
  xs.insertionSort fun a b => pyLt b a = false

/-- Python `int()` truncation toward zero on a finite float value. -/
def ratTrunc (q : ℚ) : ℤ := if 0 ≤ q then ⌊q⌋ else ⌈q⌉

/-- Left-pads a numeral string with zeros to `w` digits. -/
def zpad (w : ℕ) (n : ℕ) : String :=
  let s := toString n
  String.mk (List.replicate (w - s.length) '0') ++ s

/-- Python fixed-point formatting `f"{q:.pf}"` of a finite value,
idealised: the exact rational is rounded to `p` decimal digits (ties
half-up; CPython formats the nearest binary64 with ties-to-even — the two
agree except at exact decimal midpoints, which no claim exercises). -/
def fmtFixed (q : ℚ) (p : ℕ) : String :=
  let scaled : ℤ := round (q * (10 : ℚ) ^ p)
  let a : ℕ := scaled.natAbs
  (if q < 0 then "-" else "") ++ toString (a / 10 ^ p) ++
    (if p = 0 then "" else "." ++ zpad p (a % 10 ^ p))

/-- Python fixed-point formatting of any float value
(`f"{inf:.4f}" = "inf"`, etc.). -/
def fmtPF (v : PyFloat) (p : ℕ) : String :=
  match v with
  | .fin q => fmtFixed q p
  | .inf => "inf"
  | .ninf => "-inf"
  | .nan => "nan"

/-- Fuel-driven Newton iteration for the integer square root; the guard
`g' < g` makes the iterate strictly decrease, so the fuel only bounds the
iteration count (about `log₂ n` steps are ever taken — fuel `300` covers
every argument below `2 ^ 300`). -/
def isqrtAux (n : ℕ) : ℕ → ℕ → ℕ
  | g, 0 => g
  | g, fuel + 1 =>
    let g' := (g + n / g) / 2
    if g' < g then isqrtAux n g' fuel else g

/-- Integer square root `⌊√n⌋` (kernel-reducible, unlike `Nat.sqrt`). -/
def isqrt (n : ℕ) : ℕ := if n ≤ 1 then n else isqrtAux n (n / 2) 300

/-- Renders `√q` (for `q ≥ 0`) with `p` fixed decimal digits: the fused
composite of `math.sqrt` and the `:.pf` format — fused because `√q` is in
general irrational.  Writing `q = a / b`, the rendered integer is
`⌊√q·10^p + 1/2⌋ = ⌊(⌊√(4·10^(2p)·a·b)⌋ + b) / (2b)⌋`, computed exactly. -/
def fmtSqrtFixed (q : ℚ) (p : ℕ) : String :=
  let a := q.num.toNat
  let b := q.den
  let scaled := (isqrt (4 * 10 ^ (2 * p) * a * b) + b) / (2 * b)
  toString (scaled / 10 ^ p) ++ (if p = 0 then "" else "." ++ zpad p (scaled % 10 ^ p))

/-- The `std_dev` line value: `math.sqrt(variance)` followed by fixed-point
formatting.  `math.sqrt` raises `ValueError` on negative input (modelled as
`Except.error`); on `inf` it returns `inf` and on `nan` it returns `nan`. -/
def fmtStd (v : PyFloat) (p : ℕ) : Except String String :=
  match v with
  | .fin q => if q < 0 then .error "ValueError: math domain error" else .ok (fmtSqrtFixed q p)
  | .inf => .ok "inf"
  | .ninf => .error "ValueError: math domain error"
  | .nan => .ok "nan"

/-- The median of the sorted sample `s` of size `n` (tool.py lines 63-68):
average of the two middle elements when `n` is even, middle element when
odd. -/
def medianOf (s : List PyFloat) (n : ℕ) : PyFloat :=
  let mid := n / 2
  if n % 2 = 0 then
    pyDiv (pyAdd (s.getD (mid - 1) (.fin 0)) (s.getD mid (.fin 0))) (.fin 2)
  else s.getD mid (.fin 0)

/-- Fractional percentile rank `idx = (p/100)·(n-1)` (tool.py line 89). -/
def pctIdx (n : ℕ) (q : ℚ) : ℚ := (q / 100) * ((n : ℚ) - 1)

/-- `lo = int(idx)`; `idx ≥ 0` on every reachable input, where truncation
is the floor. -/
def pctLo (n : ℕ) (q : ℚ) : ℕ := (⌊pctIdx n q⌋).toNat

/-- `hi = min(lo + 1, n - 1)` (tool.py line 91). -/
def pctHi (n : ℕ) (q : ℚ) : ℕ := min (pctLo n q + 1) (n - 1)

/-- `frac = idx - lo` (tool.py line 92). -/
def pctFrac (n : ℕ) (q : ℚ) : ℚ := pctIdx n q - (pctLo n q : ℚ)

/-- Interpolated percentile value
`sorted[lo] * (1 - frac) + sorted[hi] * frac` (tool.py line 93), over the
sorted sample `s` of size `n` at percentile `q`. -/
def pctVal (s : List PyFloat) (n : ℕ) (q : ℚ) : PyFloat :=
  pyAdd (pyMul (s.getD (pctLo n q) (.fin 0)) (.fin (1 - pctFrac n q)))
        (pyMul (s.getD (pctHi n q) (.fin 0)) (.fin (pctFrac n q)))

/-- Rational-level form of the same interpolation formula, for reasoning
about finite samples. -/
def interpQ (s : List ℚ) (n : ℕ) (q : ℚ) : ℚ :=
  s.getD (pctLo n q) 0 * (1 - pctFrac n q) + s.getD (pctHi n q) 0 * pctFrac n q

/-- Left-justification in a field of width `w` (Python `{x:<w}`). -/
def leftJust (s : String) (w : ℕ) : String :=
  s ++ String.mk (List.replicate (w - s.length) ' ')

/-- The percentile report lines (tool.py lines 86-94): iterate the sorted
requested percentiles, skip values outside `[0, 100]` (a chained comparison
that is false for `inf`, `-inf` and `nan`), and emit
`f"p{int(p):<6}  = {val:{fmt}}"` for the rest. -/
def pctLines (s : List PyFloat) (n prec : ℕ) : List PyFloat → List String
  | [] => []
  | p :: ps =>
    match p with
    | .fin q =>
      if 0 ≤ q ∧ q ≤ 100 then
        ("p" ++ leftJust (toString (ratTrunc q)) 6 ++ "  = " ++ fmtPF (pctVal s n q) prec)
          :: pctLines s n prec ps
      else pctLines s n prec ps
    | _ => pctLines s n prec ps

/-- The report lines of `compute_stats` on a sample of size `n ≥ 1`
(tool.py lines 59-94); the six base metric lines followed by the
percentile lines.  The only error value is `math.sqrt`'s `ValueError`
(shown unreachable below). -/
def statsLines (numbers : List PyFloat) (precision : ℕ) (percentiles : List PyFloat) :
    Except String (List String) :=
  let n := numbers.length
  let s := pysorted numbers
  let mean := pyDiv (pySum numbers) (.fin n)
  let variance := pyDiv (pySum (numbers.map fun x => pyPow2 (pySub x mean))) (.fin n)
  (fmtStd variance precision).map fun sd =>
    ["n        = " ++ toString n,
     "min      = " ++ fmtPF (s.getD 0 (.fin 0)) precision,
     "max      = " ++ fmtPF (s.getD (n - 1) (.fin 0)) precision,
     "mean     = " ++ fmtPF mean precision,
     "median   = " ++ fmtPF (medianOf s n) precision,
     "std_dev  = " ++ sd]
    ++ pctLines s n precision (pysorted percentiles)

/-- Python `"\n".join`. -/
def joinLines : List String → String
  | [] => ""
  | [a] => a
  | a :: rest => a ++ "\n" ++ joinLines rest

/-- `compute_stats(numbers, precision, percentiles)` (tool.py lines
54-96).  An empty sample returns the literal `"Error: empty list"`. -/
def computeStats (numbers : List PyFloat) (precision : ℕ) (percentiles : List PyFloat) :
    Except String String :=
  if numbers.length = 0 then .ok "Error: empty list"
  else (statsLines numbers precision percentiles).map joinLines

/-! ## JSON documents and Python value coercions -/

/-- A parsed JSON document (the output of `json.loads`).  `num` carries a
`PyFloat` because Python's json module parses `Infinity`, `-Infinity`,
`NaN` and overflowing literals such as `1e999` to non-finite floats.
(The Python int/float distinction is immaterial to this program: every
numeric field is passed through `float()` / `int()` before use.) -/
inductive JValue
  | null
  | bool (b : Bool)
  | num (x : PyFloat)
  | str (s : String)
  | arr (xs : List JValue)
  | obj (fields : List (String × JValue))

/-- Python dict lookup `d.get(k)` on a dict built by `json.loads`:
with duplicate keys the last occurrence wins. -/
def dictGet (fields : List (String × JValue)) (k : String) : Option JValue :=
  fields.foldl (fun acc kv => if kv.1 = k then some kv.2 else acc) none

/-- Python iteration `for x in v`: lists yield elements, strings yield
one-character strings, dicts yield their keys; other values raise
`TypeError` (`none`). -/
def pyIter : JValue → Option (List JValue)
  | .arr xs => some xs
  | .str s => some (s.data.map fun c => .str (String.singleton c))
  | .obj fs => some (fs.map fun kv => .str kv.1)
  | _ => none

/-- Leading decimal digits of a character list, with the remainder. -/
def takeDigits : List Char → List ℕ × List Char
  | [] => ([], [])
  | c :: cs =>
    if c.isDigit then
      let (ds, rest) := takeDigits cs
      ((c.toNat - 48) :: ds, rest)
    else ([], c :: cs)

/-- Digit-list to natural number, most significant first. -/
def digitsToNat (ds : List ℕ) : ℕ := ds.foldl (fun a d => 10 * a + d) 0

/-- Splits an optional leading sign, returning whether it was `-`. -/
def takeSign : List Char → Bool × List Char
  | '-' :: t => (true, t)
  | '+' :: t => (false, t)
  | t => (false, t)

/-- Mantissa of a float literal: `digits`, `digits.digits`, `.digits` or
`digits.`; at least one digit must be present. -/
def parseMantissa (cs : List Char) : Option (ℚ × List Char) :=
  let (ip, r1) := takeDigits cs
  match r1 with
  | '.' :: r2 =>
    let (fp, r3) := takeDigits r2
    if ip = [] ∧ fp = [] then none
    else some ((digitsToNat ip : ℚ) + (digitsToNat fp : ℚ) / 10 ^ fp.length, r3)
  | _ => if ip = [] then none else some ((digitsToNat ip : ℚ), r1)

/-- Optional exponent suffix `e[sign]digits` of a float literal. -/
def parseExponent (cs : List Char) : Option ℤ :=
  match cs with
  | [] => some 0
  | 'e' :: t =>
    let (neg, t2) := takeSign t
    let (ds, r) := takeDigits t2
    if ds = [] ∨ r ≠ [] then none
    else some ((if neg then -1 else 1) * (digitsToNat ds : ℤ))
  | _ => none

/-- Python `float(s)` on a string: strip whitespace, case-insensitive
`inf`/`infinity`/`nan` with optional sign, else a decimal literal with
optional exponent.  (Underscore digit separators and non-ASCII digits,
which CPython also accepts, are not modelled; no claim exercises them.) -/
def parsePyFloat (s : String) : Option PyFloat :=
  let cs := s.trim.toLower.data
  let (neg, cs2) := takeSign cs
  if cs2 = "inf".data ∨ cs2 = "infinity".data then some (if neg then .ninf else .inf)
  else if cs2 = "nan".data then some .nan
  else
    match parseMantissa cs2 with
    | none => none
    | some (m, rest) =>
      match parseExponent rest with
      | none => none
      | some e => some (.fin ((if neg then -m else m) * (10 : ℚ) ^ e))

/-- Python `int(s)` on a string: strip whitespace, optional sign, decimal
digits only. -/
def parsePyInt (s : String) : Option ℤ :=
  let cs := s.trim.data
  let (neg, cs2) := takeSign cs
  let (ds, r) := takeDigits cs2
  if ds = [] ∨ r ≠ [] then none
  else some ((if neg then -1 else 1) * (digitsToNat ds : ℤ))

/-- Python `float(x)` on a JSON value: numbers pass through, booleans map
to `1.0`/`0.0`, strings are parsed; `None`, lists and dicts raise
`TypeError` (`none`). -/
def pyFloat : JValue → Option PyFloat
  | .num x => some x
  | .bool b => some (.fin (if b then 1 else 0))
  | .str s => parsePyFloat s
  | _ => none

/-- Python `int(x)` on a JSON value: finite numbers truncate toward zero,
`inf` raises `OverflowError` and `nan` raises `ValueError` (`none`),
booleans map to `1`/`0`, strings must be integer literals; `None`, lists
and dicts raise `TypeError` (`none`). -/
def pyInt : JValue → Option ℤ
  | .num (.fin q) => some (ratTrunc q)
  | .num _ => none
  | .bool b => some (if b then 1 else 0)
  | .str s => parsePyInt s
  | _ => none

/-- Python type name, for exception messages. -/
def pyTypeName : JValue → String
  | .null => "NoneType"
  | .bool _ => "bool"
  | .num _ => "float"
  | .str _ => "str"
  | .arr _ => "list"
  | .obj _ => "dict"

/-- The detail text of the exception raised by a failing `float(x)`
(modelled after CPython's `ValueError` / `TypeError` messages). -/
def floatErrMsg : JValue → String
  | .str s => "could not convert string to float: \x27" ++ s ++ "\x27"
  | v => "float() argument must be a string or a real number, not \x27" ++ pyTypeName v ++ "\x27"

/-- `[float(x) for x in raw]`: coerce each element, raising (as
`Except.error` with the first failure's detail) if any element fails. -/
def coerceNums : List JValue → Except String (List PyFloat)
  | [] => .ok []
  | v :: vs =>
    match pyFloat v with
    | none => .error (floatErrMsg v)
    | some x => (coerceNums vs).map (x :: ·)

/-- The percentile list actually used (tool.py lines 113-117):
`params.get("percentiles", [])` coerced element-wise, with any
`TypeError`/`ValueError` (non-iterable value, or a failing element)
silently replaced by the empty list. -/
def pctsOf (fs : List (String × JValue)) : List PyFloat :=
  match pyIter ((dictGet fs "percentiles").getD (.arr [])) with
  | none => []
  | some vs =>
    match coerceNums vs with
    | .error _ => []
    | .ok l => l

/-- Default JSON value of the `precision` parameter: `params.get("precision", 4)`. -/
def defaultPrec : JValue := .num (.fin 4)

/-- Modelled description of the exception raised by the un-guarded
`int(params.get("precision", 4))` call (tool.py line 110) on a
non-coercible value; the precise CPython message varies with the type. -/
def intErrMsg (v : JValue) : String :=
  "uncaught exception from int() on \x27" ++ pyTypeName v ++ "\x27"

/-- Control-flow outcome of the validation prefix of `handle_call`
(tool.py lines 101-117): invalid `numbers` shape, a non-coercible
`numbers` element (with the exception detail), or the arguments with which
`compute_stats` is invoked. -/
inductive CallOutcome
  | badNumbers
  | badElem (detail : String)
  | run (nums : List PyFloat) (prec : ℕ) (pcts : List PyFloat)

/-- The validation prefix of `handle_call`, faithful to the source order:
`numbers` shape check, element coercion, `int(precision)` (uncaught on
failure — an `Except.error` crash), clamping to `[0, 10]`, then percentile
extraction.  A non-dict `params` raises `AttributeError` at
`params.get`. -/
def callStage : JValue → Except String CallOutcome
  | .obj fs =>
    match dictGet fs "numbers" with
    | some (.arr raw) =>
      if raw.isEmpty then .ok .badNumbers
      else
        match coerceNums raw with
        | .error e => .ok (.badElem e)
        | .ok numbers =>
          match pyInt ((dictGet fs "precision").getD defaultPrec) with
          | none => .error (intErrMsg ((dictGet fs "precision").getD defaultPrec))
          | some z => .ok (.run numbers (Int.toNat (max 0 (min z 10))) (pctsOf fs))
    | _ => .ok .badNumbers
  | v => .error ("AttributeError: \x27" ++ pyTypeName v ++ "\x27 object has no attribute \x27get\x27")

/-- `handle_call(params)` (tool.py lines 99-120): returns
`(text_result, is_error)`, or `Except.error` for an uncaught exception. -/
def handleCall (params : JValue) : Except String (String × Bool) :=
  (callStage params).bind fun
    | .badNumbers => .ok ("Error: \x27numbers\x27 must be a non-empty array", true)
    | .badElem e => .ok ("Error: non-numeric value in numbers: " ++ e, true)
    | .run nums prec pcts => (computeStats nums prec pcts).map fun t => (t, false)

/-! ## The message loop -/

/-- The Capability Descriptor `DEFINITION` (tool.py lines 24-50). -/
def DEFINITION : JValue :=
  .obj [
    ("name", .str "stats"),
    ("description", .str "Compute descriptive statistics on a list of numbers. Returns count, min, max, mean, median, and standard deviation. Use this whenever you need to summarise or analyse numeric data."),
    ("parameters", .obj [
      ("type", .str "object"),
      ("properties", .obj [
        ("numbers", .obj [
          ("type", .str "array"),
          ("description", .str "List of numeric values to analyse"),
          ("items", .obj [("type", .str "number")])]),
        ("precision", .obj [
          ("type", .str "integer"),
          ("description", .str "Decimal places in output (default: 4)")]),
        ("percentiles", .obj [
          ("type", .str "array"),
          ("description", .str "Percentile values to compute, e.g. [25, 75, 95]"),
          ("items", .obj [("type", .str "number")])])]),
      ("required", .arr [.str "numbers"])])]

/-- Numeric rendering for `repr`, idealised (exact rational display; the
value is only ever echoed inside unknown-message-type diagnostics, whose
precise text no claim depends on). -/
def pfRepr : PyFloat → String
  | .fin q => if q.den = 1 then toString q.num else toString q.num ++ "/" ++ toString q.den
  | .inf => "inf"
  | .ninf => "-inf"
  | .nan => "nan"

mutual

/-- Python `repr` of a JSON value (used by the `{msg_type!r}` echo). -/
def pyRepr : JValue → String
  | .null => "None"
  | .bool true => "True"
  | .bool false => "False"
  | .num x => pfRepr x
  | .str s => "\x27" ++ s ++ "\x27"
  | .arr xs => "[" ++ String.intercalate ", " (pyReprArr xs) ++ "]"
  | .obj fs => "\x7b" ++ String.intercalate ", " (pyReprObj fs) ++ "\x7d"

/-- `repr` of each element of a JSON array. -/
def pyReprArr : List JValue → List String
  | [] => []
  | v :: vs => pyRepr v :: pyReprArr vs

/-- `repr` of each `key: value` entry of a JSON object. -/
def pyReprObj : List (String × JValue) → List String
  | [] => []
  | kv :: fs => ("\x27" ++ kv.1 ++ "\x27: " ++ pyRepr kv.2) :: pyReprObj fs

end

/-- `repr` of `msg.get("type")`, where an absent field is `None`. -/
def pyReprOpt : Option JValue → String
  | none => "None"
  | some v => pyRepr v

/-- The call-shaped response document
`{"content":[{"type":"text","text":t}],"error":e}`. -/
def mkResp (t : String) (e : Bool) : JValue :=
  .obj [("content", .arr [.obj [("type", .str "text"), ("text", .str t)]]),
        ("error", .bool e)]

/-- One input line of the message loop, by the outcome of stripping and
`json.loads` (Python stdlib, not modelled): blank after stripping,
unparseable (with the decode-error detail), or parsed to a document. -/
inductive InputLine
  | blank
  | malformed (detail : String)
  | parsed (v : JValue)

/-- Processing of one input line by `main`'s loop body (tool.py lines
128-158): the response documents printed for that line (`.ok`), or an
uncaught exception (`.error`).  A parsed non-object document crashes at
`msg.get("type")` (`AttributeError`). -/
def processLine : InputLine → Except String (List JValue)
  | .blank => .ok []
  | .malformed detail => .ok [mkResp ("JSON parse error: " ++ detail) true]
  | .parsed v =>
    match v with
    | .obj fs =>
      match dictGet fs "type" with
      | some (.str "describe") => .ok [DEFINITION]
      | some (.str "call") =>
        (handleCall ((dictGet fs "params").getD (.obj []))).map fun te => [mkResp te.1 te.2]
      | mt => .ok [mkResp ("Unknown message type: " ++ pyReprOpt mt) true]
    | _ => .error ("AttributeError: \x27" ++ pyTypeName v ++ "\x27 object has no attribute \x27get\x27")

/-- The whole message loop over a finite input stream: the emitted
response documents in order, and `some e` if an uncaught exception `e`
terminated the process (all later lines then go unprocessed). -/
def runLoop : List InputLine → List JValue × Option String
  | [] => ([], none)
  | l :: rest =>
    match processLine l with
    | .error e => ([], some e)
    | .ok out =>
      let r := runLoop rest
      (out ++ r.1, r.2)

/-- Non-blank input lines: the ones for which a response is due. -/
def nonBlank : InputLine → Bool
  | .blank => false
  | _ => true

/-- A well-formed response document: the Capability Descriptor (the
`describe` response shape) or a call-shaped response. -/
def wellFormed (v : JValue) : Prop :=
  v = DEFINITION ∨ ∃ t e, v = mkResp t e

/-! ## Reachability predicates for the crash-free fragment -/

/-- The `numbers` parameter validates: present, an array, non-empty, all
elements float-coercible. -/
def numbersPass (fs : List (String × JValue)) : Prop :=
  ∃ raw nums, dictGet fs "numbers" = some (.arr raw) ∧ raw ≠ [] ∧
    coerceNums raw = .ok nums

/-- The `precision` parameter (or its default) is int-coercible, so
`int(params.get("precision", 4))` does not raise. -/
def precisionOk (fs : List (String × JValue)) : Prop :=
  ∃ z, pyInt ((dictGet fs "precision").getD defaultPrec) = some z

/-- The params value does not make `handle_call` raise: it is a dict, and
whenever `numbers` validates (so that control reaches `int(precision)`),
the precision value is int-coercible. -/
def paramsOk (p : JValue) : Prop :=
  ∃ gs, p = .obj gs ∧ (numbersPass gs → precisionOk gs)

/-- An input line the loop survives: blank, malformed, or a JSON object
whose params — when it is a `call` — satisfy `paramsOk`. -/
def lineOk : InputLine → Prop
  | .blank => True
  | .malformed _ => True
  | .parsed v => ∃ fs, v = .obj fs ∧
      (dictGet fs "type" = some (.str "call") →
        paramsOk ((dictGet fs "params").getD (.obj [])))

/-- The `numbers` parameter fails validation: absent, not an array, or
empty (tool.py lines 101-103). -/
def numbersBad (fs : List (String × JValue)) : Prop :=
  ∀ raw, dictGet fs "numbers" = some (.arr raw) → raw = []

/-- Rational-level sort of a finite sample (the `nan`-free specialisation
of `pysorted`, used to state sample-level properties). -/
def sortQ (l : List ℚ) : List ℚ := l.insertionSort (· ≤ ·)

/-- Invariant satisfied by every intermediate value of the variance
computation: a nonnegative finite rational, `inf`, or `nan`. -/
def NonnegOrSpecial (v : PyFloat) : Prop :=
  (∃ q : ℚ, v = .fin q ∧ 0 ≤ q) ∨ v = .inf ∨ v = .nan


/-! ## Helper lemmas -/



lemma sorted_getD_mono {s : List ℚ} (hs : s.Sorted (· ≤ ·)) {i j : ℕ} (hij : i ≤ j)
    (hj : j < s.length) : s.getD i 0 ≤ s.getD j 0 := by
  have hi : i < s.length := lt_of_le_of_lt hij hj
  rw [List.getD_eq_get? , List.getD_eq_get?, List.get?_eq_get hi, List.get?_eq_get hj]
  exact hs.rel_get_of_le hij

lemma getD_map_fin (s : List ℚ) (i : ℕ) :
    (s.map PyFloat.fin).getD i (.fin 0) = .fin (s.getD i 0) := by
  rw [List.getD_eq_get?, List.getD_eq_get?, List.get?_map]
  cases s.get? i <;> rfl

lemma orderedInsert_map_fin (a : ℚ) (l : List ℚ) :
    List.orderedInsert (fun x y => pyLt y x = false) (PyFloat.fin a) (l.map PyFloat.fin) =
      (List.orderedInsert (· ≤ ·) a l).map PyFloat.fin := by
  induction l with
  | nil => rfl
  | cons b t ih =>
    simp only [List.map_cons, List.orderedInsert]
    by_cases hab : a ≤ b
    · have hc : pyLt (.fin b) (.fin a) = false := by
        simp [pyLt, decide_eq_false_iff_not, not_lt, hab]
      rw [if_pos hc, if_pos hab]
      rfl
    · have hc : ¬ pyLt (.fin b) (.fin a) = false := by
        simp [pyLt, decide_eq_false_iff_not, not_lt]
        exact lt_of_not_le hab
      rw [if_neg hc, if_neg hab, List.map_cons, ih]

lemma pysorted_map_fin (l : List ℚ) :
    pysorted (l.map PyFloat.fin) = (sortQ l).map PyFloat.fin := by
  induction l with
  | nil => rfl
  | cons a t ih =>
    simp only [pysorted, sortQ, List.map_cons, List.insertionSort] at *
    rw [ih, orderedInsert_map_fin]

lemma sortQ_sorted (l : List ℚ) : (sortQ l).Sorted (· ≤ ·) :=
  List.sorted_insertionSort _ l

lemma sortQ_length (l : List ℚ) : (sortQ l).length = l.length :=
  List.length_insertionSort _ l

lemma interpQ_mono {s : List ℚ} {n : ℕ} (hs : s.Sorted (· ≤ ·)) (hlen : s.length = n)
    (hn : 1 ≤ n) {q1 q2 : ℚ} (h0 : 0 ≤ q1) (h12 : q1 ≤ q2) (h100 : q2 ≤ 100) :
    interpQ s n q1 ≤ interpQ s n q2 := by
  set x := pctIdx n q1 with hxdef
  set y := pctIdx n q2 with hydef
  have hn1 : (0:ℚ) ≤ (n:ℚ) - 1 := by
    have h : (1:ℚ) ≤ (n:ℚ) := by exact_mod_cast hn
    linarith
  have hx0 : 0 ≤ x := mul_nonneg (div_nonneg h0 (by norm_num)) hn1
  have hxy : x ≤ y := by
    apply mul_le_mul_of_nonneg_right _ hn1
    exact (div_le_div_iff_of_pos_right (by norm_num : (0:ℚ) < 100)).mpr h12
  have hy0 : 0 ≤ y := le_trans hx0 hxy
  have hyn : y ≤ (n:ℚ) - 1 := by
    have h1 : q2 / 100 ≤ 1 := by
      rw [div_le_one (by norm_num : (0:ℚ) < 100)]; linarith
    calc y = (q2/100) * ((n:ℚ)-1) := rfl
    _ ≤ 1 * ((n:ℚ)-1) := mul_le_mul_of_nonneg_right h1 hn1
    _ = (n:ℚ)-1 := one_mul _
  have hfx : (0:ℤ) ≤ ⌊x⌋ := Int.floor_nonneg.mpr hx0
  have hfy : (0:ℤ) ≤ ⌊y⌋ := Int.floor_nonneg.mpr hy0
  have hfmono : ⌊x⌋ ≤ ⌊y⌋ := Int.floor_le_floor hxy
  have hfbound : ⌊y⌋ ≤ (n:ℤ) - 1 := by
    have h := Int.floor_le_floor hyn
    rwa [show ((n:ℚ) - 1) = ((n:ℚ) - (1:ℤ)) by norm_num, Int.floor_sub_int,
      Int.floor_natCast] at h
  have hlo1z : ((pctLo n q1 : ℕ) : ℤ) = ⌊x⌋ := by rw [pctLo]; exact Int.toNat_of_nonneg hfx
  have hlo2z : ((pctLo n q2 : ℕ) : ℤ) = ⌊y⌋ := by rw [pctLo]; exact Int.toNat_of_nonneg hfy
  have hcast1 : ((pctLo n q1 : ℕ) : ℚ) = ((⌊x⌋ : ℤ) : ℚ) := by
    exact_mod_cast congrArg (fun z : ℤ => (z:ℚ)) hlo1z
  have hcast2 : ((pctLo n q2 : ℕ) : ℚ) = ((⌊y⌋ : ℤ) : ℚ) := by
    exact_mod_cast congrArg (fun z : ℤ => (z:ℚ)) hlo2z
  have hf1 : pctFrac n q1 = x - ((pctLo n q1 : ℕ) : ℚ) := by rw [pctFrac]
  have hf2 : pctFrac n q2 = y - ((pctLo n q2 : ℕ) : ℚ) := by rw [pctFrac]
  have hf1a : 0 ≤ pctFrac n q1 := by rw [hf1, hcast1]; linarith [Int.floor_le x]
  have hf1b : pctFrac n q1 < 1 := by rw [hf1, hcast1]; linarith [Int.lt_floor_add_one x]
  have hf2a : 0 ≤ pctFrac n q2 := by rw [hf2, hcast2]; linarith [Int.floor_le y]
  have hf2b : pctFrac n q2 < 1 := by rw [hf2, hcast2]; linarith [Int.lt_floor_add_one y]
  have hhi1 : pctHi n q1 = min (pctLo n q1 + 1) (n - 1) := by rw [pctHi]
  have hhi2 : pctHi n q2 = min (pctLo n q2 + 1) (n - 1) := by rw [pctHi]
  have hlo1n : pctLo n q1 ≤ n - 1 := by omega
  have hlo2n : pctLo n q2 ≤ n - 1 := by omega
  have hhi1n : pctHi n q1 ≤ n - 1 := by omega
  have hhi2n : pctHi n q2 ≤ n - 1 := by omega
  have hlen1 : ∀ i : ℕ, i ≤ n - 1 → i < s.length := by omega
  have hA1B1 : s.getD (pctLo n q1) 0 ≤ s.getD (pctHi n q1) 0 :=
    sorted_getD_mono hs (by omega) (hlen1 _ hhi1n)
  have hA2B2 : s.getD (pctLo n q2) 0 ≤ s.getD (pctHi n q2) 0 :=
    sorted_getD_mono hs (by omega) (hlen1 _ hhi2n)
  rw [interpQ, interpQ]
  rcases eq_or_lt_of_le hfmono with heq | hlt
  · -- same cell: the difference is the nonnegative (f₂ - f₁)·(s[hi] - s[lo])
    have hlo12 : pctLo n q1 = pctLo n q2 := by omega
    have hhi12 : pctHi n q1 = pctHi n q2 := by omega
    have hff : pctFrac n q1 ≤ pctFrac n q2 := by
      rw [hf1, hf2, hcast1, hcast2, heq]; linarith
    rw [hlo12, hhi12]
    nlinarith [mul_nonneg (sub_nonneg.mpr hff)
      (sub_nonneg.mpr (hlo12 ▸ hA2B2))]
  · -- different cells: g(q1) ≤ s[hi1] ≤ s[lo2] ≤ g(q2)
    have hstep : pctHi n q1 ≤ pctLo n q2 := by omega
    have hmid : s.getD (pctHi n q1) 0 ≤ s.getD (pctLo n q2) 0 :=
      sorted_getD_mono hs hstep (hlen1 _ hlo2n)
    have hleft : s.getD (pctLo n q1) 0 * (1 - pctFrac n q1) +
        s.getD (pctHi n q1) 0 * pctFrac n q1 ≤ s.getD (pctHi n q1) 0 := by nlinarith
    have hright : s.getD (pctLo n q2) 0 ≤ s.getD (pctLo n q2) 0 * (1 - pctFrac n q2) +
        s.getD (pctHi n q2) 0 * pctFrac n q2 := by nlinarith
    linarith

lemma pyMul_fin (a b : ℚ) : pyMul (.fin a) (.fin b) = .fin (a * b) := rfl
lemma pyAdd_fin (a b : ℚ) : pyAdd (.fin a) (.fin b) = .fin (a + b) := rfl

lemma pctVal_map_fin (s : List ℚ) (n : ℕ) (q : ℚ) :
    pctVal (s.map PyFloat.fin) n q = .fin (interpQ s n q) := by
  rw [pctVal, interpQ, getD_map_fin, getD_map_fin, pyMul_fin, pyMul_fin, pyAdd_fin]

lemma nonnegOrSpecial_pyPow2 (x : PyFloat) : NonnegOrSpecial (pyPow2 x) := by
  cases x with
  | fin q => exact Or.inl ⟨q * q, rfl, mul_self_nonneg q⟩
  | inf => exact Or.inr (Or.inl rfl)
  | ninf => exact Or.inr (Or.inl rfl)
  | nan => exact Or.inr (Or.inr rfl)

lemma nonnegOrSpecial_pyAdd {a b : PyFloat} (ha : NonnegOrSpecial a)
    (hb : NonnegOrSpecial b) : NonnegOrSpecial (pyAdd a b) := by
  rcases ha with ⟨qa, rfl, hqa⟩ | rfl | rfl <;>
    rcases hb with ⟨qb, rfl, hqb⟩ | rfl | rfl
  all_goals first
    | exact Or.inl ⟨_, rfl, add_nonneg hqa hqb⟩
    | exact Or.inr (Or.inl rfl)
    | exact Or.inr (Or.inr rfl)

lemma nonnegOrSpecial_foldl {l : List PyFloat} (hl : ∀ x ∈ l, NonnegOrSpecial x) :
    ∀ {acc : PyFloat}, NonnegOrSpecial acc → NonnegOrSpecial (l.foldl pyAdd acc) := by
  induction l with
  | nil => intro acc h; exact h
  | cons x t ih =>
    intro acc hacc
    exact ih (fun y hy => hl y (List.mem_cons_of_mem _ hy))
      (nonnegOrSpecial_pyAdd hacc (hl x (List.mem_cons_self _ _)))

lemma nonnegOrSpecial_variance (numbers : List PyFloat) (mean : PyFloat) (n : ℕ) :
    NonnegOrSpecial
      (pyDiv (pySum (numbers.map fun x => pyPow2 (pySub x mean))) (.fin n)) := by
  have hsum : NonnegOrSpecial (pySum (numbers.map fun x => pyPow2 (pySub x mean))) := by
    apply nonnegOrSpecial_foldl
    · intro x hx
      rcases List.mem_map.mp hx with ⟨y, _, rfl⟩
      exact nonnegOrSpecial_pyPow2 _
    · exact Or.inl ⟨0, rfl, le_refl 0⟩
  rcases hsum with ⟨q, hq, hq0⟩ | hq | hq <;> rw [hq]
  · by_cases hn : ((n:ℚ)) = 0
    · simp [pyDiv, hn]
      exact Or.inr (Or.inr rfl)
    · simp only [pyDiv, if_neg hn]
      exact Or.inl ⟨q / n, rfl, div_nonneg hq0 (by positivity)⟩
  · simp only [pyDiv]
    rw [if_neg (not_lt.mpr (by positivity : (0:ℚ) ≤ (n:ℚ)))]
    exact Or.inr (Or.inl rfl)
  · exact Or.inr (Or.inr rfl)

lemma fmtStd_isOk {v : PyFloat} (hv : NonnegOrSpecial v) (p : ℕ) :
    ∃ t, fmtStd v p = .ok t := by
  rcases hv with ⟨q, rfl, hq⟩ | rfl | rfl
  · exact ⟨fmtSqrtFixed q p, by rw [fmtStd, if_neg (not_lt.mpr hq)]⟩
  · exact ⟨"inf", rfl⟩
  · exact ⟨"nan", rfl⟩

lemma statsLines_isOk (numbers : List PyFloat) (precision : ℕ) (percentiles : List PyFloat) :
    ∃ ls, statsLines numbers precision percentiles = .ok ls := by
  rw [statsLines]
  obtain ⟨t, ht⟩ := fmtStd_isOk
    (nonnegOrSpecial_variance numbers (pyDiv (pySum numbers) (.fin numbers.length))
      numbers.length) precision
  rw [ht]
  exact ⟨_, rfl⟩

lemma computeStats_isOk (numbers : List PyFloat) (precision : ℕ) (percentiles : List PyFloat) :
    ∃ t, computeStats numbers precision percentiles = .ok t := by
  rw [computeStats]
  by_cases h : numbers.length = 0
  · rw [if_pos h]; exact ⟨_, rfl⟩
  · rw [if_neg h]
    obtain ⟨ls, hls⟩ := statsLines_isOk numbers precision percentiles
    rw [hls]
    exact ⟨_, rfl⟩

lemma handleCall_run {params : JValue} {nums : List PyFloat} {prec : ℕ}
    {pcts : List PyFloat} (h : callStage params = .ok (.run nums prec pcts)) :
    handleCall params = (computeStats nums prec pcts).map fun t => (t, false) := by
  rw [handleCall, h]
  rfl

lemma callStage_badNumbers {gs : List (String × JValue)} (h : numbersBad gs) :
    callStage (.obj gs) = .ok .badNumbers := by
  rw [callStage]
  cases hnum : dictGet gs "numbers" with
  | none => rfl
  | some v =>
    cases v with
    | arr raw =>
      have : raw = [] := h raw hnum
      subst this
      rfl
    | null => rfl
    | bool b => rfl
    | num x => rfl
    | str s => rfl
    | obj fs2 => rfl

lemma callStage_badElem {gs : List (String × JValue)} {raw : List JValue} {e : String}
    (hnum : dictGet gs "numbers" = some (.arr raw)) (hraw : raw.isEmpty = false)
    (hco : coerceNums raw = .error e) :
    callStage (.obj gs) = .ok (.badElem e) := by
  rw [callStage, hnum]
  simp [hraw, hco]

lemma callStage_run_eq {gs : List (String × JValue)} {raw : List JValue}
    {nums : List PyFloat} {z : ℤ}
    (hnum : dictGet gs "numbers" = some (.arr raw)) (hraw : raw.isEmpty = false)
    (hco : coerceNums raw = .ok nums)
    (hz : pyInt ((dictGet gs "precision").getD defaultPrec) = some z) :
    callStage (.obj gs) = .ok (.run nums (Int.toNat (max 0 (min z 10))) (pctsOf gs)) := by
  rw [callStage, hnum]
  simp [hraw, hco, hz]

lemma callStage_crash {gs : List (String × JValue)} {raw : List JValue}
    {nums : List PyFloat}
    (hnum : dictGet gs "numbers" = some (.arr raw)) (hraw : raw.isEmpty = false)
    (hco : coerceNums raw = .ok nums)
    (hz : pyInt ((dictGet gs "precision").getD defaultPrec) = none) :
    callStage (.obj gs) = .error (intErrMsg ((dictGet gs "precision").getD defaultPrec)) := by
  rw [callStage, hnum]
  simp [hraw, hco, hz]

lemma handleCall_total (gs : List (String × JValue)) (h : numbersPass gs → precisionOk gs) :
    ∃ r, handleCall (.obj gs) = .ok r := by
  cases hnum : dictGet gs "numbers" with
  | none =>
    rw [handleCall, callStage_badNumbers (fun raw hr => by rw [hnum] at hr; cases hr)]
    exact ⟨_, rfl⟩
  | some v =>
    match v with
    | .arr raw =>
      cases hraw : raw.isEmpty with
      | true =>
        rw [handleCall, callStage_badNumbers
          (fun raw2 hr2 => by
            rw [hnum] at hr2
            cases hr2
            exact List.isEmpty_iff.mp hraw)]
        exact ⟨_, rfl⟩
      | false =>
        cases hco : coerceNums raw with
        | error e =>
          rw [handleCall, callStage_badElem hnum hraw hco]
          exact ⟨_, rfl⟩
        | ok nums =>
          have hraw0 : raw ≠ [] := by
            intro hr
            rw [hr] at hraw
            cases hraw
          obtain ⟨z, hz⟩ := h ⟨raw, nums, hnum, hraw0, hco⟩
          rw [handleCall, callStage_run_eq hnum hraw hco hz]
          obtain ⟨t, ht⟩ := computeStats_isOk nums (Int.toNat (max 0 (min z 10))) (pctsOf gs)
          exact ⟨(t, false), by simp [Except.bind, Except.map, ht]⟩
    | .null =>
      rw [handleCall, callStage_badNumbers (fun raw hr => by rw [hnum] at hr; cases hr)]
      exact ⟨_, rfl⟩
    | .bool b =>
      rw [handleCall, callStage_badNumbers (fun raw hr => by rw [hnum] at hr; cases hr)]
      exact ⟨_, rfl⟩
    | .num x =>
      rw [handleCall, callStage_badNumbers (fun raw hr => by rw [hnum] at hr; cases hr)]
      exact ⟨_, rfl⟩
    | .str s =>
      rw [handleCall, callStage_badNumbers (fun raw hr => by rw [hnum] at hr; cases hr)]
      exact ⟨_, rfl⟩
    | .obj fs2 =>
      rw [handleCall, callStage_badNumbers (fun raw hr => by rw [hnum] at hr; cases hr)]
      exact ⟨_, rfl⟩

lemma coerceNums_error_of_mem {vs : List JValue} {v : JValue} (hv : v ∈ vs)
    (hbad : pyFloat v = none) : ∃ e, coerceNums vs = .error e := by
  induction vs with
  | nil => cases hv
  | cons w t ih =>
    rw [coerceNums]
    rcases List.mem_cons.mp hv with rfl | hmem
    · rw [hbad]; exact ⟨_, rfl⟩
    · cases hw : pyFloat w with
      | none => exact ⟨_, rfl⟩
      | some x =>
        obtain ⟨e, he⟩ := ih hmem
        rw [he]
        exact ⟨e, rfl⟩

lemma report_head_ne (r : String) : "n        = " ++ r ≠ "Error: empty list" := by
  intro h
  have h2 : ("n        = " ++ r).data = ("Error: empty list").data := by rw [h]
  rw [String.data_append] at h2
  have h3 : ("n        = ").data = 'n' :: (" ".data ++ "       = ".data) := rfl
  rw [h3] at h2
  simp at h2

lemma statsLines_shape {numbers : List PyFloat} {precision : ℕ} {percentiles : List PyFloat}
    {ls : List String} (h : statsLines numbers precision percentiles = .ok ls) :
    ∃ rest, ls = ("n        = " ++ toString numbers.length) :: rest ∧ rest ≠ [] := by
  rw [statsLines] at h
  cases hstd : fmtStd (pyDiv (pySum (numbers.map fun x =>
      pyPow2 (pySub x (pyDiv (pySum numbers) (.fin numbers.length)))))
      (.fin numbers.length)) precision with
  | error e => rw [hstd] at h; cases h
  | ok sd =>
    rw [hstd] at h
    cases h
    exact ⟨_, rfl, by simp⟩

lemma computeStats_ok_head {nums : List PyFloat} {prec : ℕ} {pcts : List PyFloat} {t : String}
    (hn : nums ≠ []) (h : computeStats nums prec pcts = .ok t) :
    ∃ r, t = "n        = " ++ r := by
  rw [computeStats, if_neg (by simpa using hn)] at h
  cases hsl : statsLines nums prec pcts with
  | error e => rw [hsl] at h; cases h
  | ok ls =>
    rw [hsl] at h
    cases h
    obtain ⟨rest, hls, hrest⟩ := statsLines_shape hsl
    rw [hls]
    cases rest with
    | nil => cases hrest rfl
    | cons b t2 =>
      refine ⟨toString nums.length ++ ("\n" ++ joinLines (b :: t2)), ?_⟩
      rw [joinLines]
      · rw [String.append_assoc, String.append_assoc]
      · simp

lemma processLine_ok {l : InputLine} (h : lineOk l) :
    ∃ out, processLine l = .ok out ∧
      out.length = (if nonBlank l then 1 else 0) ∧ ∀ v ∈ out, wellFormed v := by
  cases l with
  | blank => exact ⟨[], rfl, rfl, by simp⟩
  | malformed d =>
    refine ⟨_, rfl, rfl, ?_⟩
    intro v hv
    rw [List.mem_singleton] at hv
    exact hv ▸ Or.inr ⟨_, _, rfl⟩
  | parsed v =>
    obtain ⟨fs, rfl, hcall⟩ := h
    rw [processLine]
    split
    · exact ⟨[DEFINITION], rfl, rfl, by
        intro v hv
        rw [List.mem_singleton] at hv
        exact hv ▸ Or.inl rfl⟩
    · next heq =>
      obtain ⟨gs, hp, himp⟩ := hcall heq
      rw [hp]
      obtain ⟨r, hr⟩ := handleCall_total gs himp
      rw [hr]
      refine ⟨[mkResp r.1 r.2], rfl, rfl, ?_⟩
      intro v hv
      rw [List.mem_singleton] at hv
      exact hv ▸ Or.inr ⟨_, _, rfl⟩
    · refine ⟨_, rfl, rfl, ?_⟩
      intro v hv
      rw [List.mem_singleton] at hv
      exact hv ▸ Or.inr ⟨_, _, rfl⟩

lemma runLoop_ok {lines : List InputLine} (h : ∀ l ∈ lines, lineOk l) :
    (runLoop lines).2 = none ∧
    (runLoop lines).1.length = (lines.filter nonBlank).length ∧
    ∀ v ∈ (runLoop lines).1, wellFormed v := by
  induction lines with
  | nil => exact ⟨rfl, rfl, by simp [runLoop]⟩
  | cons l rest ih =>
    obtain ⟨out, hout, hlen, hwf⟩ := processLine_ok (h l (List.mem_cons_self _ _))
    obtain ⟨ih1, ih2, ih3⟩ := ih fun x hx => h x (List.mem_cons_of_mem _ hx)
    rw [runLoop, hout]
    refine ⟨ih1, ?_, ?_⟩
    · rw [List.length_append, hlen, ih2, List.filter_cons]
      cases hnb : nonBlank l
      · simp
      · simp
        omega
    · intro v hv
      rcases List.mem_append.mp hv with h1 | h2
      exacts [hwf v h1, ih3 v h2]

lemma dictGet_append_self (fs : List (String × JValue)) (k : String) (v : JValue) :
    dictGet (fs ++ [(k, v)]) k = some v := by
  rw [dictGet, List.foldl_append]
  simp

lemma dictGet_append_ne (fs : List (String × JValue)) {k k' : String} (v : JValue)
    (hne : k ≠ k') : dictGet (fs ++ [(k, v)]) k' = dictGet fs k' := by
  rw [dictGet, dictGet, List.foldl_append]
  simp [hne]

lemma pctsOf_append_prec (fs : List (String × JValue)) (v : JValue) :
    pctsOf (fs ++ [("precision", v)]) = pctsOf fs := by
  rw [pctsOf, pctsOf, dictGet_append_ne _ _ (by decide)]

lemma callStage_congr {fs1 fs2 : List (String × JValue)} {z1 z2 : ℤ}
    (hnum : dictGet fs1 "numbers" = dictGet fs2 "numbers")
    (h1 : pyInt ((dictGet fs1 "precision").getD defaultPrec) = some z1)
    (h2 : pyInt ((dictGet fs2 "precision").getD defaultPrec) = some z2)
    (hclamp : Int.toNat (max 0 (min z1 10)) = Int.toNat (max 0 (min z2 10)))
    (hpcts : pctsOf fs1 = pctsOf fs2) :
    callStage (.obj fs1) = callStage (.obj fs2) := by
  rw [callStage, callStage, hnum]
  cases hn : dictGet fs2 "numbers" with
  | none => rfl
  | some w =>
    match w with
    | .null => rfl
    | .bool b => rfl
    | .num x => rfl
    | .str s => rfl
    | .obj gs => rfl
    | .arr raw =>
      cases hraw : raw.isEmpty with
      | true => simp [hraw]
      | false =>
        cases hco : coerceNums raw with
        | error e => simp [hraw, hco]
        | ok nums => simp [hraw, hco, h1, h2, hclamp, hpcts]

lemma handleCall_success {gs : List (String × JValue)} (hnp : numbersPass gs)
    (hpo : precisionOk gs) : ∃ t, handleCall (.obj gs) = .ok (t, false) := by
  obtain ⟨raw, nums, hnum, hraw0, hco⟩ := hnp
  obtain ⟨z, hz⟩ := hpo
  have hraw : raw.isEmpty = false := by
    cases raw with
    | nil => exact absurd rfl hraw0
    | cons a t => rfl
  rw [handleCall, callStage_run_eq hnum hraw hco hz]
  obtain ⟨t, ht⟩ := computeStats_isOk nums (Int.toNat (max 0 (min z 10))) (pctsOf gs)
  exact ⟨t, by simp [Except.bind, Except.map, ht]⟩

lemma coerceNums_ne_nil {raw : List JValue} {nums : List PyFloat} (h0 : raw ≠ [])
    (h : coerceNums raw = .ok nums) : nums ≠ [] := by
  cases raw with
  | nil => exact absurd rfl h0
  | cons v vs =>
    rw [coerceNums] at h
    cases hv : pyFloat v with
    | none => rw [hv] at h; cases h
    | some x =>
      rw [hv] at h
      cases hvs : coerceNums vs with
      | error e => rw [hvs] at h; cases h
      | ok l =>
        rw [hvs] at h
        cases h
        simp

lemma callStage_run_inv {gs : List (String × JValue)} {nums : List PyFloat} {prec : ℕ}
    {pcts : List PyFloat} (h : callStage (.obj gs) = .ok (.run nums prec pcts)) :
    ∃ raw z, dictGet gs "numbers" = some (.arr raw) ∧ raw.isEmpty = false ∧
      coerceNums raw = .ok nums ∧
      pyInt ((dictGet gs "precision").getD defaultPrec) = some z ∧
      prec = Int.toNat (max 0 (min z 10)) ∧ pcts = pctsOf gs := by
  rw [callStage] at h
  cases hnum : dictGet gs "numbers" with
  | none => rw [hnum] at h; simp at h
  | some w =>
    rw [hnum] at h
    match w with
    | .null => simp at h
    | .bool b => simp at h
    | .num x => simp at h
    | .str s => simp at h
    | .obj gs2 => simp at h
    | .arr raw =>
      cases hraw : raw.isEmpty with
      | true => simp [hraw] at h
      | false =>
        cases hco : coerceNums raw with
        | error e => simp [hraw, hco] at h
        | ok nums2 =>
          cases hz : pyInt ((dictGet gs "precision").getD defaultPrec) with
          | none => simp [hraw, hco, hz] at h
          | some z =>
            simp only [hraw, hco, hz, Bool.false_eq_true, if_false,
              Except.ok.injEq, CallOutcome.run.injEq] at h
            obtain ⟨h1, h2, h3⟩ := h
            exact ⟨raw, z, rfl, hraw, h1 ▸ hco, rfl, h2.symm, h3.symm⟩

lemma callStage_run_nonempty {params : JValue} {nums : List PyFloat} {prec : ℕ}
    {pcts : List PyFloat} (h : callStage params = .ok (.run nums prec pcts)) :
    nums ≠ [] := by
  match params with
  | .obj gs =>
    obtain ⟨raw, z, _, hraw, hco, _⟩ := callStage_run_inv h
    exact coerceNums_ne_nil (by cases raw with | nil => cases hraw | cons a t => simp) hco
  | .null => cases h
  | .bool b => cases h
  | .num x => cases h
  | .str s => cases h
  | .arr xs => cases h

lemma pctsOf_dropped {fs : List (String × JValue)}
    (h : dictGet fs "percentiles" = none ∨
      ∃ vs, pyIter ((dictGet fs "percentiles").getD (.arr [])) = some vs ∧
        ∃ v ∈ vs, pyFloat v = none) :
    pctsOf fs = [] := by
  rw [pctsOf]
  rcases h with h | ⟨vs, hvs, v, hv, hbad⟩
  · rw [h]; rfl
  · rw [hvs]
    obtain ⟨e, he⟩ := coerceNums_error_of_mem hv hbad
    simp [he]

lemma statsLines_nopct_len {nums : List PyFloat} {prec : ℕ} {ls : List String}
    (h : statsLines nums prec [] = .ok ls) : ls.length = 6 := by
  rw [statsLines] at h
  cases hstd : fmtStd (pyDiv (pySum (nums.map fun x =>
      pyPow2 (pySub x (pyDiv (pySum nums) (.fin nums.length)))))
      (.fin nums.length)) prec with
  | error e => rw [hstd] at h; cases h
  | ok sd =>
    rw [hstd] at h
    cases h
    rfl

lemma handleCall_false_inv {params : JValue} {t : String}
    (h : handleCall params = .ok (t, false)) :
    ∃ nums prec pcts, callStage params = .ok (.run nums prec pcts) ∧
      computeStats nums prec pcts = .ok t := by
  rw [handleCall] at h
  cases hcs : callStage params with
  | error e => rw [hcs] at h; cases h
  | ok o =>
    rw [hcs] at h
    match o with
    | .badNumbers => simp [Except.bind] at h
    | .badElem e => simp [Except.bind] at h
    | .run nums prec pcts =>
      refine ⟨nums, prec, pcts, rfl, ?_⟩
      simp only [Except.bind] at h
      cases hc : computeStats nums prec pcts with
      | error e => rw [hc] at h; cases h
      | ok t2 =>
        rw [hc] at h
        simp only [Except.map, Except.ok.injEq, Prod.mk.injEq] at h
        rw [h.1]

lemma pyInt_defaultPrec : pyInt defaultPrec = some 4 := by with_unfolding_all rfl

/-- C1 (corrected): every blank, malformed, or surviving-object line emits
exactly one well-formed response per non-blank line, the loop never
crashes, and processing continues across the whole stream. -/
theorem C1_loop_robust (lines : List InputLine) (h : ∀ l ∈ lines, lineOk l) :
    (runLoop lines).2 = none ∧
    (runLoop lines).1.length = (lines.filter nonBlank).length ∧
    ∀ v ∈ (runLoop lines).1, wellFormed v :=
  runLoop_ok h

theorem C1_witness :
    (∀ l ∈ ([.blank, .malformed "bad line",
        .parsed (.obj [("type", .str "describe")]),
        .parsed (.obj [("type", .str "call"),
          ("params", .obj [("numbers", .arr [.num (.fin 1), .num (.fin 2)])])])] :
        List InputLine), lineOk l) ∧
    ((runLoop [.blank, .malformed "bad line",
        .parsed (.obj [("type", .str "describe")]),
        .parsed (.obj [("type", .str "call"),
          ("params", .obj [("numbers", .arr [.num (.fin 1), .num (.fin 2)])])])]).2 = none ∧
      (runLoop [.blank, .malformed "bad line",
        .parsed (.obj [("type", .str "describe")]),
        .parsed (.obj [("type", .str "call"),
          ("params", .obj [("numbers", .arr [.num (.fin 1), .num (.fin 2)])])])]).1.length =
      ([.blank, .malformed "bad line",
        .parsed (.obj [("type", .str "describe")]),
        .parsed (.obj [("type", .str "call"),
          ("params", .obj [("numbers", .arr [.num (.fin 1), .num (.fin 2)])])])].filter
            nonBlank).length ∧
      ∀ v ∈ (runLoop [.blank, .malformed "bad line",
        .parsed (.obj [("type", .str "describe")]),
        .parsed (.obj [("type", .str "call"),
          ("params", .obj [("numbers", .arr [.num (.fin 1), .num (.fin 2)])])])]).1,
        wellFormed v) := by
  have hok : ∀ l ∈ ([.blank, .malformed "bad line",
      .parsed (.obj [("type", .str "describe")]),
      .parsed (.obj [("type", .str "call"),
        ("params", .obj [("numbers", .arr [.num (.fin 1), .num (.fin 2)])])])] :
      List InputLine), lineOk l := by
    intro l hl
    simp only [List.mem_cons, List.not_mem_nil, or_false] at hl
    rcases hl with rfl | rfl | rfl | rfl
    · exact trivial
    · exact trivial
    · refine ⟨_, rfl, fun hty => ?_⟩
      rw [show dictGet [("type", JValue.str "describe")] "type" =
        some (JValue.str "describe") from rfl] at hty
      injection hty with h1
      injection h1 with h2
      exact absurd h2 (by decide)
    · refine ⟨_, rfl, fun _ =>
        ⟨[("numbers", JValue.arr [.num (.fin 1), .num (.fin 2)])], ?_, fun _ => ⟨4, ?_⟩⟩⟩
      · with_unfolding_all rfl
      · with_unfolding_all rfl
  exact ⟨hok, C1_loop_robust _ hok⟩

theorem C1_cex :
    processLine (.parsed (.arr [])) =
      .error "AttributeError: \x27list\x27 object has no attribute \x27get\x27" ∧
    runLoop [.parsed (.arr []), .parsed (.obj [("type", .str "describe")])] =
      ([], some "AttributeError: \x27list\x27 object has no attribute \x27get\x27") := by
  exact ⟨rfl, rfl⟩

/-- C2 (corrected): for every parameter bag (JSON object) in which the
`precision` field is int-coercible whenever `numbers` validates, the call
handler returns a `(text, is_error)` pair and never raises. -/
theorem C2_handler_no_raise (gs : List (String × JValue))
    (h : numbersPass gs → precisionOk gs) :
    ∃ r, handleCall (.obj gs) = .ok r :=
  handleCall_total gs h

theorem C2_witness :
    (numbersPass [("numbers", JValue.arr [.num (.fin 1)]), ("precision", .num (.fin 7))] →
      precisionOk [("numbers", JValue.arr [.num (.fin 1)]), ("precision", .num (.fin 7))]) ∧
    ∃ r, handleCall (.obj [("numbers", JValue.arr [.num (.fin 1)]),
      ("precision", .num (.fin 7))]) = .ok r := by
  have h : numbersPass [("numbers", JValue.arr [.num (.fin 1)]), ("precision", .num (.fin 7))] →
      precisionOk [("numbers", JValue.arr [.num (.fin 1)]), ("precision", .num (.fin 7))] :=
    fun _ => ⟨7, by with_unfolding_all rfl⟩
  exact ⟨h, C2_handler_no_raise _ h⟩

theorem C2_cex :
    handleCall (.obj [("numbers", .arr [.num (.fin 1)]), ("precision", .null)]) =
      .error "uncaught exception from int() on \x27NoneType\x27" := by
  with_unfolding_all rfl

/-- C3 (corrected): every sample with which `compute_stats` is invoked is
non-empty; finiteness is not part of the invariant (see the
counterexample). -/
theorem C3_sample_nonempty (params : JValue) (nums : List PyFloat) (prec : ℕ)
    (pcts : List PyFloat) (h : callStage params = .ok (.run nums prec pcts)) :
    nums ≠ [] :=
  callStage_run_nonempty h

theorem C3_witness :
    callStage (.obj [("numbers", .arr [.num (.fin 1)])]) =
      .ok (.run [.fin 1] 4 []) ∧ ([PyFloat.fin 1] : List PyFloat) ≠ [] := by
  have h : callStage (.obj [("numbers", .arr [.num (.fin 1)])]) =
      .ok (.run [.fin 1] 4 []) := by with_unfolding_all rfl
  exact ⟨h, C3_sample_nonempty _ _ _ _ h⟩

theorem C3_cex :
    callStage (.obj [("numbers", .arr [.num .inf])]) = .ok (.run [.inf] 4 []) ∧
    PyFloat.isFinite .inf = false := by
  constructor
  · with_unfolding_all rfl
  · rfl

/-- C4 (confirmed): a missing, non-array or empty `numbers` yields exactly
the is_error result with the fixed message; a non-empty `numbers` with any
non-coercible element yields an is_error result whose text extends the
`"Error: non-numeric value in numbers: "` prefix with the exception
detail. -/
theorem C4_numbers_validation :
    (∀ fs : List (String × JValue), numbersBad fs →
      handleCall (.obj fs) =
        .ok ("Error: \x27numbers\x27 must be a non-empty array", true)) ∧
    (∀ (fs : List (String × JValue)) (raw : List JValue) (v : JValue),
      dictGet fs "numbers" = some (.arr raw) → raw ≠ [] → v ∈ raw → pyFloat v = none →
      ∃ e, handleCall (.obj fs) =
        .ok ("Error: non-numeric value in numbers: " ++ e, true)) := by
  constructor
  · intro fs h
    rw [handleCall, callStage_badNumbers h]
    rfl
  · intro fs raw v hnum hraw0 hv hbad
    obtain ⟨e, he⟩ := coerceNums_error_of_mem hv hbad
    have hraw : raw.isEmpty = false := by
      cases raw with
      | nil => exact absurd rfl hraw0
      | cons a t => rfl
    refine ⟨e, ?_⟩
    rw [handleCall, callStage_badElem hnum hraw he]
    rfl

theorem C4_witness :
    (numbersBad ([] : List (String × JValue)) ∧
      handleCall (.obj []) =
        .ok ("Error: \x27numbers\x27 must be a non-empty array", true)) ∧
    ∃ e, handleCall (.obj [("numbers", .arr [.null])]) =
      .ok ("Error: non-numeric value in numbers: " ++ e, true) := by
  have hbad : numbersBad ([] : List (String × JValue)) := by
    intro raw hr
    rw [show dictGet ([] : List (String × JValue)) "numbers" = none from rfl] at hr
    cases hr
  refine ⟨⟨hbad, C4_numbers_validation.1 [] hbad⟩, ?_⟩
  exact C4_numbers_validation.2 [("numbers", .arr [.null])] [.null] .null
    (by with_unfolding_all rfl) (by simp) (by simp) rfl

/-- C5 (confirmed): over any non-empty finite sample, the interpolated
percentile value computed by the engine (over the engine's own sorted
sample, by the `lo`/`hi`/`frac` formula) is monotone in the requested
percentile within `[0, 100]`. -/
theorem C5_percentile_monotone (l : List ℚ) (hl : l ≠ []) (p1 p2 : ℚ)
    (h1a : 0 ≤ p1) (_h1b : p1 ≤ 100) (_h2a : 0 ≤ p2) (h2b : p2 ≤ 100) (h12 : p1 < p2) :
    ∃ v1 v2 : ℚ,
      pctVal (pysorted (l.map PyFloat.fin)) l.length p1 = .fin v1 ∧
      pctVal (pysorted (l.map PyFloat.fin)) l.length p2 = .fin v2 ∧ v1 ≤ v2 := by
  rw [pysorted_map_fin, pctVal_map_fin, pctVal_map_fin]
  refine ⟨_, _, rfl, rfl, ?_⟩
  exact interpQ_mono (sortQ_sorted l) (sortQ_length l)
    (List.length_pos.mpr hl) h1a (le_of_lt h12) h2b

theorem C5_witness :
    (([1, 2] : List ℚ) ≠ [] ∧ (0:ℚ) ≤ 0 ∧ (0:ℚ) ≤ 100 ∧ (0:ℚ) ≤ 100 ∧
      (100:ℚ) ≤ 100 ∧ (0:ℚ) < 100) ∧
    ∃ v1 v2 : ℚ,
      pctVal (pysorted (([1, 2] : List ℚ).map PyFloat.fin)) ([1, 2] : List ℚ).length 0 =
        .fin v1 ∧
      pctVal (pysorted (([1, 2] : List ℚ).map PyFloat.fin)) ([1, 2] : List ℚ).length 100 =
        .fin v2 ∧ v1 ≤ v2 := by
  refine ⟨⟨by simp, by norm_num, by norm_num, by norm_num, by norm_num, by norm_num⟩, ?_⟩
  exact C5_percentile_monotone [1, 2] (by simp) 0 100 (by norm_num) (by norm_num)
    (by norm_num) (by norm_num) (by norm_num)

/-- C6 (confirmed): the spec's base scenario — numbers 1..5, default
precision, no percentiles — succeeds with the exact six-line report. -/
theorem C6_scenario_basic :
    handleCall (.obj [("numbers",
      .arr [.num (.fin 1), .num (.fin 2), .num (.fin 3), .num (.fin 4), .num (.fin 5)])]) =
    .ok ("n        = 5\nmin      = 1.0000\nmax      = 5.0000\nmean     = 3.0000\nmedian   = 3.0000\nstd_dev  = 1.4142", false) := by
  with_unfolding_all rfl

/-- C7 (confirmed): the engine's median over any non-empty finite sample
is the average of the two middle sorted elements for even size, and the
middle sorted element for odd size. -/
theorem C7_median_formula (l : List ℚ) (_hl : l ≠ []) :
    medianOf (pysorted (l.map PyFloat.fin)) l.length =
      if l.length % 2 = 0 then
        .fin (((sortQ l).getD (l.length / 2 - 1) 0 + (sortQ l).getD (l.length / 2) 0) / 2)
      else .fin ((sortQ l).getD (l.length / 2) 0) := by
  rw [pysorted_map_fin, medianOf]
  by_cases h : l.length % 2 = 0
  · rw [if_pos h, if_pos h, getD_map_fin, getD_map_fin, pyAdd_fin]
    show pyDiv _ _ = _
    rw [show pyDiv (.fin ((sortQ l).getD (l.length / 2 - 1) 0 + (sortQ l).getD (l.length / 2) 0))
        (.fin 2) =
      .fin (((sortQ l).getD (l.length / 2 - 1) 0 + (sortQ l).getD (l.length / 2) 0) / 2) by
        rw [pyDiv]
        simp]
  · rw [if_neg h, if_neg h, getD_map_fin]

theorem C7_witness :
    (([3, 1, 2] : List ℚ) ≠ []) ∧
    medianOf (pysorted (([3, 1, 2] : List ℚ).map PyFloat.fin)) ([3, 1, 2] : List ℚ).length =
      if ([3, 1, 2] : List ℚ).length % 2 = 0 then
        .fin (((sortQ [3, 1, 2]).getD (([3, 1, 2] : List ℚ).length / 2 - 1) 0 +
          (sortQ [3, 1, 2]).getD (([3, 1, 2] : List ℚ).length / 2) 0) / 2)
      else .fin ((sortQ [3, 1, 2]).getD (([3, 1, 2] : List ℚ).length / 2) 0) :=
  ⟨by simp, C7_median_formula [3, 1, 2] (by simp)⟩

lemma pyInt_999 : pyInt (.num (.fin 999)) = some 999 := by with_unfolding_all rfl
lemma pyInt_10 : pyInt (.num (.fin 10)) = some 10 := by with_unfolding_all rfl
lemma pyInt_neg5 : pyInt (.num (.fin (-5))) = some (-5) := by with_unfolding_all rfl
lemma pyInt_0 : pyInt (.num (.fin 0)) = some 0 := by with_unfolding_all rfl

/-- C8 (confirmed): `precision` defaults to 4, is clamped into `[0, 10]`
(999 behaves as 10, -5 as 0), and a coercible precision never causes an
error result on an otherwise valid call. -/
theorem C8_precision_clamp :
    (∀ fs : List (String × JValue), dictGet fs "precision" = none →
      callStage (.obj fs) = callStage (.obj (fs ++ [("precision", .num (.fin 4))]))) ∧
    (∀ fs : List (String × JValue),
      handleCall (.obj (fs ++ [("precision", .num (.fin 999))])) =
      handleCall (.obj (fs ++ [("precision", .num (.fin 10))]))) ∧
    (∀ fs : List (String × JValue),
      handleCall (.obj (fs ++ [("precision", .num (.fin (-5)))])) =
      handleCall (.obj (fs ++ [("precision", .num (.fin 0))]))) ∧
    (∀ fs : List (String × JValue), precisionOk fs → numbersPass fs →
      ∃ t, handleCall (.obj fs) = .ok (t, false)) := by
  refine ⟨?_, ?_, ?_, ?_⟩
  · intro fs h
    apply callStage_congr
    · exact (dictGet_append_ne fs _ (by decide)).symm
    · rw [h]
      exact pyInt_defaultPrec
    · rw [dictGet_append_self]
      exact pyInt_defaultPrec
    · rfl
    · exact (pctsOf_append_prec fs _).symm
  · intro fs
    rw [handleCall, handleCall,
      callStage_congr
        ((dictGet_append_ne fs _ (by decide)).trans (dictGet_append_ne fs _ (by decide)).symm)
        (by rw [dictGet_append_self]; exact pyInt_999)
        (by rw [dictGet_append_self]; exact pyInt_10)
        (by decide)
        ((pctsOf_append_prec fs _).trans (pctsOf_append_prec fs _).symm)]
  · intro fs
    rw [handleCall, handleCall,
      callStage_congr
        ((dictGet_append_ne fs _ (by decide)).trans (dictGet_append_ne fs _ (by decide)).symm)
        (by rw [dictGet_append_self]; exact pyInt_neg5)
        (by rw [dictGet_append_self]; exact pyInt_0)
        (by decide)
        ((pctsOf_append_prec fs _).trans (pctsOf_append_prec fs _).symm)]
  · intro fs hpo hnp
    exact handleCall_success hnp hpo

theorem C8_witness :
    (dictGet [("numbers", JValue.arr [.num (.fin 1)])] "precision" = none ∧
      callStage (.obj [("numbers", JValue.arr [.num (.fin 1)])]) =
        callStage (.obj ([("numbers", JValue.arr [.num (.fin 1)])] ++
          [("precision", .num (.fin 4))]))) ∧
    (precisionOk [("numbers", JValue.arr [.num (.fin 1)]), ("precision", .num (.fin 999))] ∧
      numbersPass [("numbers", JValue.arr [.num (.fin 1)]), ("precision", .num (.fin 999))] ∧
      ∃ t, handleCall (.obj [("numbers", JValue.arr [.num (.fin 1)]),
        ("precision", .num (.fin 999))]) = .ok (t, false)) := by
  have h1 : dictGet [("numbers", JValue.arr [.num (.fin 1)])] "precision" = none := by
    with_unfolding_all rfl
  have hpo : precisionOk [("numbers", JValue.arr [.num (.fin 1)]),
      ("precision", .num (.fin 999))] := ⟨999, by with_unfolding_all rfl⟩
  have hnp : numbersPass [("numbers", JValue.arr [.num (.fin 1)]),
      ("precision", .num (.fin 999))] :=
    ⟨[.num (.fin 1)], [.fin 1], by with_unfolding_all rfl, by simp, by with_unfolding_all rfl⟩
  exact ⟨⟨h1, C8_precision_clamp.1 _ h1⟩, hpo, hnp, C8_precision_clamp.2.2.2 _ hpo hnp⟩

/-- C9 (corrected): with valid numbers and a coercible precision, an
absent percentile list or one with a non-coercible element is dropped
entirely: the call succeeds and the report is exactly the six base lines. -/
theorem C9_percentiles_dropped (fs : List (String × JValue))
    (hnp : numbersPass fs) (hpo : precisionOk fs)
    (hdrop : dictGet fs "percentiles" = none ∨
      ∃ vs, pyIter ((dictGet fs "percentiles").getD (.arr [])) = some vs ∧
        ∃ v ∈ vs, pyFloat v = none) :
    ∃ nums prec ls, callStage (.obj fs) = .ok (.run nums prec []) ∧
      statsLines nums prec [] = .ok ls ∧ ls.length = 6 ∧
      handleCall (.obj fs) = .ok (joinLines ls, false) := by
  obtain ⟨raw, nums, hnum, hraw0, hco⟩ := hnp
  obtain ⟨z, hz⟩ := hpo
  have hraw : raw.isEmpty = false := by
    cases raw with
    | nil => exact absurd rfl hraw0
    | cons a t => rfl
  have hstage := callStage_run_eq hnum hraw hco hz
  rw [pctsOf_dropped hdrop] at hstage
  obtain ⟨ls, hls⟩ := statsLines_isOk nums (Int.toNat (max 0 (min z 10))) []
  have hne : nums ≠ [] := coerceNums_ne_nil hraw0 hco
  refine ⟨nums, _, ls, hstage, hls, statsLines_nopct_len hls, ?_⟩
  rw [handleCall, hstage]
  have hcs : computeStats nums (Int.toNat (max 0 (min z 10))) [] = .ok (joinLines ls) := by
    rw [computeStats, if_neg (by simpa using hne), hls]
    rfl
  simp [Except.bind, Except.map, hcs]

theorem C9_witness :
    (numbersPass [("numbers", JValue.arr [.num (.fin 1), .num (.fin 2)]),
        ("percentiles", .arr [.null])] ∧
      precisionOk [("numbers", JValue.arr [.num (.fin 1), .num (.fin 2)]),
        ("percentiles", .arr [.null])] ∧
      ∃ vs, pyIter ((dictGet [("numbers", JValue.arr [.num (.fin 1), .num (.fin 2)]),
          ("percentiles", .arr [.null])] "percentiles").getD (.arr [])) = some vs ∧
        ∃ v ∈ vs, pyFloat v = none) ∧
    ∃ nums prec ls,
      callStage (.obj [("numbers", JValue.arr [.num (.fin 1), .num (.fin 2)]),
        ("percentiles", .arr [.null])]) = .ok (.run nums prec []) ∧
      statsLines nums prec [] = .ok ls ∧ ls.length = 6 ∧
      handleCall (.obj [("numbers", JValue.arr [.num (.fin 1), .num (.fin 2)]),
        ("percentiles", .arr [.null])]) = .ok (joinLines ls, false) := by
  have hnp : numbersPass [("numbers", JValue.arr [.num (.fin 1), .num (.fin 2)]),
      ("percentiles", .arr [.null])] :=
    ⟨[.num (.fin 1), .num (.fin 2)], [.fin 1, .fin 2],
      by with_unfolding_all rfl, by simp, by with_unfolding_all rfl⟩
  have hpo : precisionOk [("numbers", JValue.arr [.num (.fin 1), .num (.fin 2)]),
      ("percentiles", .arr [.null])] := ⟨4, by with_unfolding_all rfl⟩
  have hdr : ∃ vs, pyIter ((dictGet [("numbers", JValue.arr [.num (.fin 1), .num (.fin 2)]),
      ("percentiles", .arr [.null])] "percentiles").getD (.arr [])) = some vs ∧
      ∃ v ∈ vs, pyFloat v = none :=
    ⟨[.null], by with_unfolding_all rfl, .null, by simp, rfl⟩
  exact ⟨⟨hnp, hpo, hdr⟩, C9_percentiles_dropped _ hnp hpo (Or.inr hdr)⟩

theorem C9_cex :
    handleCall (.obj [("numbers", .arr [.num (.fin 1)]), ("percentiles", .arr [.null]),
      ("precision", .null)]) =
      .error "uncaught exception from int() on \x27NoneType\x27" := by
  with_unfolding_all rfl

/-- C10 (confirmed): the handler never returns the empty-list guard text
as a success, and every is_error=false text is a genuine report produced
by `compute_stats` on a non-empty sample, starting with the `n` line. -/
theorem C10_no_mislabel :
    (∀ params : JValue, handleCall params ≠ .ok ("Error: empty list", false)) ∧
    (∀ (params : JValue) (t : String), handleCall params = .ok (t, false) →
      ∃ nums prec pcts, callStage params = .ok (.run nums prec pcts) ∧ nums ≠ [] ∧
        computeStats nums prec pcts = .ok t ∧ ∃ r, t = "n        = " ++ r) := by
  have part2 : ∀ (params : JValue) (t : String), handleCall params = .ok (t, false) →
      ∃ nums prec pcts, callStage params = .ok (.run nums prec pcts) ∧ nums ≠ [] ∧
        computeStats nums prec pcts = .ok t ∧ ∃ r, t = "n        = " ++ r := by
    intro params t h
    obtain ⟨nums, prec, pcts, hcs, hc⟩ := handleCall_false_inv h
    have hne := callStage_run_nonempty hcs
    exact ⟨nums, prec, pcts, hcs, hne, hc, computeStats_ok_head hne hc⟩
  refine ⟨?_, part2⟩
  intro params h
  obtain ⟨nums, prec, pcts, _, _, _, r, hr⟩ := part2 params _ h
  exact report_head_ne r hr.symm

theorem C10_witness :
    handleCall (.obj [("numbers", .arr [.num (.fin 1)])]) =
      .ok ("n        = 1\nmin      = 1.0000\nmax      = 1.0000\nmean     = 1.0000\nmedian   = 1.0000\nstd_dev  = 0.0000", false) ∧
    ∃ nums prec pcts,
      callStage (.obj [("numbers", .arr [.num (.fin 1)])]) = .ok (.run nums prec pcts) ∧
      nums ≠ [] ∧
      computeStats nums prec pcts =
        .ok "n        = 1\nmin      = 1.0000\nmax      = 1.0000\nmean     = 1.0000\nmedian   = 1.0000\nstd_dev  = 0.0000" ∧
      ∃ r, ("n        = 1\nmin      = 1.0000\nmax      = 1.0000\nmean     = 1.0000\nmedian   = 1.0000\nstd_dev  = 0.0000" : String) =
        "n        = " ++ r := by
  have h : handleCall (.obj [("numbers", .arr [.num (.fin 1)])]) =
      .ok ("n        = 1\nmin      = 1.0000\nmax      = 1.0000\nmean     = 1.0000\nmedian   = 1.0000\nstd_dev  = 0.0000", false) := by
    with_unfolding_all rfl
  exact ⟨h, C10_no_mislabel.2 _ _ h⟩
